import Mathlib

/-!
Verification development for the Kopek trading bot.

Shallow embedding of the trading core:
* `trade_manager.py` — the position ledger (`TradeManager`): trades keyed by
  trade id, a balance, open/resolve operations.
* `strategy.py` — entry evaluator (`_should_enter`), cut-loss checks
  (`_check_cutloss`), cut-loss execution (`_execute_cutloss`) and outcome
  checking (`_check_outcomes`).
* `binance_ws.py` — the per-asset reference price (`price_at_buy`) used by the
  feed-side cut-loss check.

Python floats are modelled as rationals (`ℚ`); Python dicts as insertion-order
association lists; raised exceptions as `Option` results (the raise leaves the
in-memory state unmutated, and the scheduler loop catches the exception).
-/

set_option allowUnsafeReducibility true

attribute [local semireducible] Rat.add Rat.sub Rat.mul Rat.neg Rat.div Rat.inv
  Rat.ofScientific

namespace Kopek

/-! ### Trade ids: `_new_id` renders `f"T{counter:04d}"` -/

/-- Little-endian decimal digits of `n`, computed with explicit fuel so that
the kernel can evaluate it (`Nat.digits`-style value, structural recursion). -/
def digitsRevAux : ℕ → ℕ → List ℕ
  | 0, _ => []
  | fuel + 1, n => if n = 0 then [] else n % 10 :: digitsRevAux fuel (n / 10)

/-- Little-endian decimal digits of `n` (empty for `0`). -/
def digitsRev (n : ℕ) : List ℕ := digitsRevAux n n

/-- Decimal digit to character, `d ↦ '0' + d`. -/
def digitChar (d : ℕ) : Char := Char.ofNat (48 + d)

/-- Value of a character as a decimal digit. -/
def charVal (c : Char) : ℕ := c.toNat - 48

/-- Most-significant-first decimal rendering of `n` (empty for `0`). -/
def natChars (n : ℕ) : List Char := (digitsRev n).reverse.map digitChar

/-- Left-pad with `'0'` to width 4, as Python's `{:04d}` format does. -/
def pad4 (cs : List Char) : List Char := List.replicate (4 - cs.length) '0' ++ cs

/-- `TradeManager._new_id`: the id string `f"T{n:04d}"`. -/
def newId (n : ℕ) : String := String.mk ('T' :: pad4 (natChars n))

/-- Decimal value of a most-significant-first character list. -/
def valChars (cs : List Char) : ℕ := cs.foldl (fun a c => a * 10 + charVal c) 0

/-! ### The `Trade` dataclass -/

/-- The `Trade` dataclass of `trade_manager.py`, field for field. -/
structure Trade where
  trade_id : String
  condition_id : String
  order_id : String
  asset : String
  direction : String
  market_type : String
  market_label : String
  open_time_str : String
  close_time_str : String
  buy_price : ℚ
  shares : ℚ
  size_usdc : ℚ
  yes_token_id : String
  no_token_id : String
  close_timestamp : ℚ
  entry_time : ℚ
  binance_entry_price : ℚ
  status : String
  sell_price : Option ℚ := none
  pnl_usdc : Option ℚ := none
  resolved_at : Option ℚ := none
  cutloss_reason : Option String := none
deriving DecidableEq, Repr

/-- Arguments of `TradeManager.open_trade` (everything the caller supplies). -/
structure OpenParams where
  condition_id : String
  order_id : String
  asset : String
  direction : String
  market_type : String
  market_label : String
  open_time_str : String
  close_time_str : String
  buy_price : ℚ
  shares : ℚ
  size_usdc : ℚ
  yes_token_id : String
  no_token_id : String
  close_timestamp : ℚ
  binance_entry_price : ℚ
deriving DecidableEq, Repr

/-! ### The ledger state (`TradeManager`) -/

/-- In-memory state of a `TradeManager`: the `trades` dict (insertion-order
association list keyed by `trade_id`), the `balance`, and `_trade_counter`. -/
structure TMState where
  trades : List Trade
  balance : ℚ
  counter : ℕ
deriving DecidableEq, Repr

/-- `TradeManager.__init__` with no persisted file: empty dict, starting
balance, counter 0. -/
def TMState.init (startingBalance : ℚ) : TMState :=
  { trades := [], balance := startingBalance, counter := 0 }

/-- `self.trades[trade.trade_id] = trade` on an insertion-ordered dict:
replace in place when the key exists, append otherwise. -/
def updateTrades (l : List Trade) (t : Trade) : List Trade :=
  if l.any (fun u => u.trade_id = t.trade_id) then
    l.map (fun u => if u.trade_id = t.trade_id then t else u)
  else l ++ [t]

/-- `self.trades[trade_id]` lookup (first entry with the key; `none` models
the `KeyError`). -/
def lookupTrade (l : List Trade) (id : String) : Option Trade :=
  l.find? (fun u => u.trade_id = id)

/-- `TradeManager.open_trade`: build the `Trade` with a fresh id and status
`"open"`, debit `size_usdc` from the balance, store the trade. Returns the
trade and the new state. -/
def openTrade (s : TMState) (p : OpenParams) (now : ℚ) : Trade × TMState :=
  let counter' := s.counter + 1
  let t : Trade :=
    { trade_id := newId counter'
      condition_id := p.condition_id
      order_id := p.order_id
      asset := p.asset
      direction := p.direction
      market_type := p.market_type
      market_label := p.market_label
      open_time_str := p.open_time_str
      close_time_str := p.close_time_str
      buy_price := p.buy_price
      shares := p.shares
      size_usdc := p.size_usdc
      yes_token_id := p.yes_token_id
      no_token_id := p.no_token_id
      close_timestamp := p.close_timestamp
      entry_time := now
      binance_entry_price := p.binance_entry_price
      status := "open" }
  (t, { trades := updateTrades s.trades t
        balance := s.balance - p.size_usdc
        counter := counter' })

/-- The field mutations `resolve_win` performs on the looked-up trade:
sell price 1.0, pnl `shares×(1−buy)`, status `"win"`. -/
def winUpdate (t : Trade) (now : ℚ) : Trade :=
  { t with sell_price := some 1, pnl_usdc := some (t.shares * (1 - t.buy_price)),
           status := "win", resolved_at := some now }

/-- The field mutations `resolve_loss` performs: sell price 0, pnl
`−size_usdc`, status `"loss"`. -/
def lossUpdate (t : Trade) (now : ℚ) : Trade :=
  { t with sell_price := some 0, pnl_usdc := some (-t.size_usdc),
           status := "loss", resolved_at := some now }

/-- The field mutations `resolve_cutloss` performs: sell price, pnl
`shares×sellPrice − size_usdc`, status `"cutloss"`, the reason. -/
def cutlossUpdate (t : Trade) (sellPrice : ℚ) (reason : String) (now : ℚ) : Trade :=
  { t with sell_price := some sellPrice,
           pnl_usdc := some (t.shares * sellPrice - t.size_usdc),
           status := "cutloss", resolved_at := some now,
           cutloss_reason := some reason }

/-- `TradeManager.resolve_win`: look the trade up (a missing id raises
`KeyError`, modelled as `none`), apply `winUpdate`, credit the balance by
`shares` (payout `shares×1.0`). No status check is made. -/
def resolveWin (s : TMState) (id : String) (now : ℚ) : Option TMState :=
  match lookupTrade s.trades id with
  | none => none
  | some t =>
    some { s with trades := updateTrades s.trades (winUpdate t now),
                  balance := s.balance + t.shares }

/-- `TradeManager.resolve_loss`: apply `lossUpdate`; the balance is left as
is (payout 0). No status check is made. -/
def resolveLoss (s : TMState) (id : String) (now : ℚ) : Option TMState :=
  match lookupTrade s.trades id with
  | none => none
  | some t =>
    some { s with trades := updateTrades s.trades (lossUpdate t now) }

/-- `TradeManager.resolve_cutloss`: apply `cutlossUpdate`, credit the balance
by the payout `shares×sell_price`. No status check is made. -/
def resolveCutloss (s : TMState) (id : String) (sellPrice : ℚ) (reason : String)
    (now : ℚ) : Option TMState :=
  match lookupTrade s.trades id with
  | none => none
  | some t =>
    some { s with trades := updateTrades s.trades (cutlossUpdate t sellPrice reason now),
                  balance := s.balance + t.shares * sellPrice }

/-- `TradeManager.already_traded`: any trade (open or terminal) for this
market. -/
def alreadyTraded (s : TMState) (conditionId : String) : Bool :=
  s.trades.any (fun t => t.condition_id = conditionId)

/-- `TradeManager.get_open_trades`. -/
def getOpenTrades (s : TMState) : List Trade :=
  s.trades.filter (fun t => t.status = "open")

/-- `TradeManager.set_balance`. -/
def setBalance (s : TMState) (b : ℚ) : TMState := { s with balance := b }

/-! ### Ledger operations as a step relation -/

/-- One call to a mutating `TradeManager` method. -/
inductive Op where
  | openT (p : OpenParams) (now : ℚ)
  | win (id : String) (now : ℚ)
  | loss (id : String) (now : ℚ)
  | cutloss (id : String) (sellPrice : ℚ) (reason : String) (now : ℚ)
  | setBal (b : ℚ)
deriving DecidableEq, Repr

/-- Effect of one ledger call on the in-memory state. A `resolve*` call on a
missing id raises `KeyError` before any mutation, so the state is unchanged. -/
def applyOp (s : TMState) : Op → TMState
  | .openT p now => (openTrade s p now).2
  | .win id now => (resolveWin s id now).getD s
  | .loss id now => (resolveLoss s id now).getD s
  | .cutloss id sp r now => (resolveCutloss s id sp r now).getD s
  | .setBal b => setBalance s b

/-- Ledger states reachable from a fresh `TradeManager` by any sequence of
method calls (no constraint on how callers use `open_trade`). -/
inductive Reachable : TMState → Prop where
  | init (b : ℚ) : Reachable (TMState.init b)
  | step {s : TMState} (op : Op) : Reachable s → Reachable (applyOp s op)

/-- Ledger states reachable when every `open_trade` call is guarded by the
caller's `already_traded` check, as `Strategy.market_scanner_loop` and
`Strategy._should_enter` do. -/
inductive GuardedReachable : TMState → Prop where
  | init (b : ℚ) : GuardedReachable (TMState.init b)
  | openT {s : TMState} (p : OpenParams) (now : ℚ) :
      alreadyTraded s p.condition_id = false → GuardedReachable s →
      GuardedReachable (openTrade s p now).2
  | win {s : TMState} (id : String) (now : ℚ) :
      GuardedReachable s → GuardedReachable (applyOp s (.win id now))
  | loss {s : TMState} (id : String) (now : ℚ) :
      GuardedReachable s → GuardedReachable (applyOp s (.loss id now))
  | cutloss {s : TMState} (id : String) (sp : ℚ) (r : String) (now : ℚ) :
      GuardedReachable s → GuardedReachable (applyOp s (.cutloss id sp r now))
  | setBal {s : TMState} (b : ℚ) :
      GuardedReachable s → GuardedReachable (applyOp s (.setBal b))

/-! ### Order book (`polymarket_client.py`) -/

/-- Top of the CLOB order book for one token, as `get_orderbook_depth`
returns it: price/size levels. -/
structure Book where
  bids : List (ℚ × ℚ)
  asks : List (ℚ × ℚ)
deriving DecidableEq, Repr

/-- `PolymarketClient.get_best_ask`: `asks[0]["price"]` when any ask exists,
else `None` (also the result of a fetch error). -/
def getBestAsk (b : Book) : Option ℚ := b.asks.head?.map Prod.fst

/-- Best bid as `get_orderbook_depth` exposes it: `bids[0][0]`. -/
def getBestBid (b : Book) : Option ℚ := b.bids.head?.map Prod.fst

/-- `spread` field of `get_orderbook_depth`: `asks[0][0] - bids[0][0]` when
both sides are nonempty, else `None`. -/
def bookSpread (b : Book) : Option ℚ :=
  match b.asks.head?, b.bids.head? with
  | some a, some bid => some (a.1 - bid.1)
  | _, _ => none

/-! ### Entry evaluator (`Strategy._should_enter`) -/

/-- The strategy configuration values read from `config.py` that
`_should_enter` and `_check_cutloss` use. -/
structure StratConfig where
  buy_threshold : ℚ
  entry_seconds_5m : ℚ
  entry_seconds_15m : ℚ
  cutloss_pm_price : ℚ
  cutloss_binance_pct : ℚ
deriving DecidableEq, Repr

/-- The `config.py` defaults (`BUY_THRESHOLD=0.97`, windows 120/300 s,
`CUTLOSS_PM_PRICE=0.80`, `CUTLOSS_BINANCE_PCT=0.003`). -/
def defaultConfig : StratConfig :=
  { buy_threshold := 0.97
    entry_seconds_5m := 120
    entry_seconds_15m := 300
    cutloss_pm_price := 0.80
    cutloss_binance_pct := 0.003 }

/-- `Strategy._get_entry_window`. -/
def entryWindow (cfg : StratConfig) (marketType : String) : ℚ :=
  if marketType = "5m" then cfg.entry_seconds_5m else cfg.entry_seconds_15m

/-- Everything `_should_enter` reads about a candidate market at the moment of
evaluation: the market fields it uses and the live values returned by the
collaborator calls it makes. -/
structure EntryInput where
  market_type : String
  direction : String
  seconds_to_close : ℚ
  already_traded : Bool
  best_ask : Option ℚ
  spread : Option ℚ
  trend_1m : Option ℚ
  spot_price : Option ℚ
deriving DecidableEq, Repr

/-- The distinct rejection/acceptance reasons `_should_enter` can produce
(the log strings, with their interpolated values abstracted away). -/
inductive EntryReason where
  | tooEarly
  | tooLate
  | alreadyTradedMarket
  | noOrderBook
  | priceTooLow
  | priceAtOne
  | spreadTooWide
  | assetDropping
  | assetRising
  | noSpotPrice
  | entryOk
deriving DecidableEq, Repr

/-- `Strategy._should_enter`, transliterated check for check and split into
its sequential stages (each stage is the rest of the function from one check
on). `shouldEnterSpot` is check 6: the Binance price availability guard. -/
def shouldEnterSpot (i : EntryInput) : Bool × EntryReason :=
  match i.spot_price with
  | none => (false, .noSpotPrice)
  | some _ => (true, .entryOk)

/-- Check 5 of `_should_enter`: the Binance momentum veto, then check 6. -/
def shouldEnterMomentum (i : EntryInput) : Bool × EntryReason :=
  match i.trend_1m with
  | some t =>
    if i.direction = "UP" ∧ t < -0.002 then (false, .assetDropping)
    else if i.direction = "DOWN" ∧ t > 0.002 then (false, .assetRising)
    else shouldEnterSpot i
  | none => shouldEnterSpot i

/-- Check 4 of `_should_enter`: the spread check, then check 5. The Python
truthiness test `if book["spread"] and book["spread"] > 0.05` fails only for
a present, non-zero spread above 0.05. -/
def shouldEnterSpread (i : EntryInput) : Bool × EntryReason :=
  if (match i.spread with
      | some s => (!decide (s = 0)) && decide (s > 0.05)
      | none => false) then (false, .spreadTooWide)
  else shouldEnterMomentum i

/-- Check 3 of `_should_enter`: the ask-price threshold checks, then
check 4. -/
def shouldEnterAsk (cfg : StratConfig) (i : EntryInput) : Bool × EntryReason :=
  match i.best_ask with
  | none => (false, .noOrderBook)
  | some ask =>
    if ask < cfg.buy_threshold then (false, .priceTooLow)
    else if ask ≥ 1 then (false, .priceAtOne)
    else shouldEnterSpread i

/-- `Strategy._should_enter`: checks 1 (time window) and 2 (market
uniqueness), then checks 3–6. -/
def shouldEnter (cfg : StratConfig) (i : EntryInput) : Bool × EntryReason :=
  if i.seconds_to_close > entryWindow cfg i.market_type then (false, .tooEarly)
  else if i.seconds_to_close ≤ 5 then (false, .tooLate)
  else if i.already_traded then (false, .alreadyTradedMarket)
  else shouldEnterAsk cfg i

/-! ### Entry evaluator, as the spec words it

The spec describes six ordered checks, short-circuiting on the first failing
one with a reason specific to that check. The following definitions follow the
spec's wording; `shouldEnter_eq_spec` relates them to the code. -/

/-- Spec check 1: time-to-close within the entry window and above the 5 s
safety margin. -/
def passTimeWindow (cfg : StratConfig) (i : EntryInput) : Bool :=
  decide (i.seconds_to_close ≤ entryWindow cfg i.market_type) &&
    decide (i.seconds_to_close > 5)

/-- Spec check 2: no prior attempt on this market. -/
def passUniqueness (i : EntryInput) : Bool := !i.already_traded

/-- Spec check 3: a best ask exists, is at least the buy threshold, and is
strictly below 1.0. -/
def passAskThreshold (cfg : StratConfig) (i : EntryInput) : Bool :=
  match i.best_ask with
  | some a => decide (cfg.buy_threshold ≤ a) && decide (a < 1)
  | none => false

/-- Spec check 4: the spread, when available, is at most 5 cents. -/
def passSpread (i : EntryInput) : Bool :=
  match i.spread with
  | some s => decide (s ≤ 0.05)
  | none => true

/-- Spec check 5: the 1-minute trend, when available, does not contradict the
market direction beyond the 0.2 % tolerance. -/
def passMomentum (i : EntryInput) : Bool :=
  match i.trend_1m with
  | some t =>
    !(decide (i.direction = "UP") && decide (t < -0.002)) &&
      !(decide (i.direction = "DOWN") && decide (t > 0.002))
  | none => true

/-- Spec check 6: a current spot price exists. -/
def passSpot (i : EntryInput) : Bool := i.spot_price.isSome

/-- The reason specific to spec check `k`, for the sub-case that failed. -/
def reasonTimeWindow (cfg : StratConfig) (i : EntryInput) : EntryReason :=
  if i.seconds_to_close > entryWindow cfg i.market_type then .tooEarly else .tooLate

def reasonAskThreshold (cfg : StratConfig) (i : EntryInput) : EntryReason :=
  match i.best_ask with
  | none => .noOrderBook
  | some a => if a < cfg.buy_threshold then .priceTooLow else .priceAtOne

def reasonMomentum (i : EntryInput) : EntryReason :=
  match i.trend_1m with
  | some t => if i.direction = "UP" ∧ t < -0.002 then .assetDropping else .assetRising
  | none => .entryOk

/-- The six spec checks in order, each paired with its failure reason. -/
def specChecks (cfg : StratConfig) (i : EntryInput) : List (Bool × EntryReason) :=
  [ (passTimeWindow cfg i, reasonTimeWindow cfg i),
    (passUniqueness i, .alreadyTradedMarket),
    (passAskThreshold cfg i, reasonAskThreshold cfg i),
    (passSpread i, .spreadTooWide),
    (passMomentum i, reasonMomentum i),
    (passSpot i, .noSpotPrice) ]

/-- The spec's evaluator: accept when all six checks pass, otherwise reject
with the reason of the first failing check. -/
def shouldEnterSpec (cfg : StratConfig) (i : EntryInput) : Bool × EntryReason :=
  match (specChecks cfg i).find? (fun c => !c.1) with
  | some c => (false, c.2)
  | none => (true, .entryOk)

/-! ### Cut-loss checks (`Strategy._check_cutloss`) -/

/-- The distinct cut-loss reason strings of `_check_cutloss`, abstracted. -/
inductive CutReason where
  | pmDrop
  | binanceDrop
  | binanceRise
deriving DecidableEq, Repr

/-- Lines 184–196 of `strategy.py`: the feed-side (Binance) cut-loss branch.
`change` is `binance_monitor.get_change_pct(trade.asset)`. -/
def binanceCutloss (cfg : StratConfig) (direction : String) (change : Option ℚ) :
    Option CutReason :=
  match change with
  | some c =>
    if direction = "UP" ∧ c ≤ -cfg.cutloss_binance_pct then some .binanceDrop
    else if direction = "DOWN" ∧ c ≥ cfg.cutloss_binance_pct then some .binanceRise
    else none
  | none => none

/-- `Strategy._check_cutloss`: first the Polymarket-side check against the
best ask of the YES token (`get_best_ask`), then the feed-side check. -/
def checkCutloss (cfg : StratConfig) (direction : String) (book : Book)
    (change : Option ℚ) : Option CutReason :=
  match getBestAsk book with
  | some ask =>
    if ask < cfg.cutloss_pm_price then some .pmDrop
    else binanceCutloss cfg direction change
  | none => binanceCutloss cfg direction change

/-! ### System state: strategy + feed reference prices

`Strategy` keeps `_pending_outcomes` (a set of condition ids) and
`BinancePriceMonitor` keeps `prices` (latest spot per asset) and
`price_at_buy` (the per-asset reference pinned at entry). -/

/-- Association-list read (`dict.get`). -/
def getAssoc (l : List (String × ℚ)) (k : String) : Option ℚ :=
  (l.find? (fun e => e.1 = k)).map Prod.snd

/-- Association-list write (`dict[k] = v` on an insertion-ordered dict). -/
def setAssoc (l : List (String × ℚ)) (k : String) (v : ℚ) : List (String × ℚ) :=
  if l.any (fun e => e.1 = k) then
    l.map (fun e => if e.1 = k then (k, v) else e)
  else l ++ [(k, v)]

/-- Association-list delete (`dict.pop(k, None)`). -/
def delAssoc (l : List (String × ℚ)) (k : String) : List (String × ℚ) :=
  l.filter (fun e => ¬e.1 = k)

/-- The mutable state shared by the strategy loops: the ledger, the
strategy's `_pending_outcomes` cache, and the price monitor's `prices` and
`price_at_buy` dictionaries. -/
structure SysState where
  tm : TMState
  pending : List String
  spot : List (String × ℚ)
  refPrice : List (String × ℚ)
deriving DecidableEq, Repr

/-- `set.add`: append if absent. -/
def pendingAdd (l : List String) (c : String) : List String :=
  if l.contains c then l else l ++ [c]

/-- `set.discard` / set subtraction of one element. -/
def pendingDiscard (l : List String) (c : String) : List String :=
  l.filter (fun x => ¬x = c)

/-- `BinancePriceMonitor.set_reference_price`: pin the current spot price for
the asset, if a spot price is known; otherwise do nothing. -/
def setReferencePrice (s : SysState) (asset : String) : SysState :=
  match getAssoc s.spot asset with
  | some v => { s with refPrice := setAssoc s.refPrice asset v }
  | none => s

/-- `BinancePriceMonitor.clear_reference_price`. -/
def clearReferencePrice (s : SysState) (asset : String) : SysState :=
  { s with refPrice := delAssoc s.refPrice asset }

/-- One externally-triggered step of the system, as the strategy code
performs it:
* `tick`: `BinancePriceMonitor._process_tick` updates the latest spot price
  (no cut-loss callback is registered anywhere in the program, and the tick
  never touches `price_at_buy`);
* `enter`: the success path of `Strategy._execute_buy` — `open_trade`,
  `set_reference_price(asset)`, add the market to `_pending_outcomes`;
* `cutloss`: `Strategy._execute_cutloss` — sell (possibly failing), then
  `resolve_cutloss`, `clear_reference_price(asset)`, discard from
  `_pending_outcomes`; a missing trade id raises before any mutation;
* `outcome`: the body of `Strategy._check_outcomes` for one resolved trade —
  `clear_reference_price(asset)`, then `resolve_win`/`resolve_loss`, and the
  market leaves `_pending_outcomes`. -/
inductive Ev where
  | tick (asset : String) (price : ℚ)
  | enter (p : OpenParams) (now : ℚ)
  | cutloss (tradeId : String) (bids : List (ℚ × ℚ)) (sellOk : Bool)
      (reason : String) (now : ℚ)
  | outcome (tradeId : String) (win : Bool) (now : ℚ)
deriving DecidableEq, Repr

/-- Sell price used by `_execute_cutloss`: best bid, floored at 1 cent; `0.0`
when the sell order raised. -/
def cutlossSellPrice (bids : List (ℚ × ℚ)) (sellOk : Bool) : ℚ :=
  if sellOk then max ((bids.head?.map Prod.fst).getD 0.01) 0.01 else 0

def step (s : SysState) : Ev → SysState
  | .tick a v => { s with spot := setAssoc s.spot a v }
  | .enter p now =>
    let (t, tm') := openTrade s.tm p now
    let s' := { s with tm := tm' }
    let s'' := setReferencePrice s' p.asset
    { s'' with pending := pendingAdd s''.pending t.condition_id }
  | .cutloss id bids sellOk reason now =>
    match lookupTrade s.tm.trades id with
    | none => s
    | some t =>
      let sp := cutlossSellPrice bids sellOk
      match resolveCutloss s.tm id sp reason now with
      | none => s
      | some tm' =>
        let s' := clearReferencePrice { s with tm := tm' } t.asset
        { s' with pending := pendingDiscard s'.pending t.condition_id }
  | .outcome id win now =>
    match lookupTrade s.tm.trades id with
    | none => s
    | some t =>
      let s' := clearReferencePrice s t.asset
      let tm'? := if win then resolveWin s'.tm id now else resolveLoss s'.tm id now
      match tm'? with
      | none => s
      | some tm' =>
        { s' with tm := tm', pending := pendingDiscard s'.pending t.condition_id }

/-- Run a list of events. -/
def runEvents (s : SysState) (evs : List Ev) : SysState := evs.foldl step s

/-! ### Outcome checking (`Strategy._check_outcomes`) -/

/-- One iteration of the `for trade in self.tm.get_open_trades()` body of
`_check_outcomes`, threading the ledger state and recording which markets got
polled (`check_market_resolved` called) and which resolved. `resolution` is
the venue's answer per condition id (`None` = still pending). -/
def checkOutcomeStep (resolution : String → Option String) (now : ℚ)
    (acc : SysState × List String × List String) (t : Trade) :
    SysState × List String × List String :=
  let (s, polled, resolvedIds) := acc
  if ¬s.pending.contains t.condition_id then acc
  else if now < t.close_timestamp then acc
  else
    match resolution t.condition_id with
    | none => (s, polled ++ [t.condition_id], resolvedIds)
    | some outcome =>
      let s₁ := clearReferencePrice s t.asset
      let tm'? :=
        if outcome = "YES" then resolveWin s₁.tm t.trade_id now
        else resolveLoss s₁.tm t.trade_id now
      match tm'? with
      | none => (s₁, polled ++ [t.condition_id], resolvedIds ++ [t.condition_id])
      | some tm' =>
        ({ s₁ with tm := tm' }, polled ++ [t.condition_id],
          resolvedIds ++ [t.condition_id])

/-- `Strategy._check_outcomes`: iterate over the open trades (computed once),
then subtract the resolved ids from `_pending_outcomes`. Returns the new
state and the list of condition ids for which the venue was polled. -/
def checkOutcomes (s : SysState) (resolution : String → Option String)
    (now : ℚ) : SysState × List String :=
  let init : SysState × List String × List String := (s, [], [])
  let (s', polled, resolvedIds) := (getOpenTrades s.tm).foldl
    (checkOutcomeStep resolution now) init
  ({ s' with pending := s'.pending.filter (fun c => ¬resolvedIds.contains c) }, polled)

/-! ### Reload from the persisted document (`TradeManager._load`) -/

/-- The persisted document: `{balance, counter, trades}`. -/
structure TradesDoc where
  balance : ℚ
  counter : ℕ
  trades : List Trade
deriving DecidableEq, Repr

/-- `TradeManager.__init__` + `_load` when the file exists and parses:
balance, counter and the trades dict all come from the document. -/
def loadTM (doc : TradesDoc) : TMState :=
  { trades := doc.trades, balance := doc.balance, counter := doc.counter }

/-- `Strategy.__init__` on a freshly loaded ledger: `_pending_outcomes`
starts empty; the price monitor also starts with empty dictionaries. -/
def initFromLoad (doc : TradesDoc) : SysState :=
  { tm := loadTM doc, pending := [], spot := [], refPrice := [] }

/-- `Strategy._execute_cutloss` for a looked-up open trade, as a standalone
operation (used by the position monitor loop). -/
def executeCutloss (s : SysState) (tradeId : String) (bids : List (ℚ × ℚ))
    (sellOk : Bool) (reason : String) (now : ℚ) : SysState :=
  step s (.cutloss tradeId bids sellOk reason now)

/-! ### Concrete fixtures used by counterexamples and witnesses -/

/-- A typical open: BTC UP 5m at 97¢, 10 shares for 9.7 USDC. -/
def p971 : OpenParams :=
  { condition_id := "M1", order_id := "O1", asset := "BTC", direction := "UP"
    market_type := "5m", market_label := "BTC Up or Down - 5 Minutes"
    open_time_str := "a", close_time_str := "b"
    buy_price := 0.97, shares := 10, size_usdc := mkRat 97 10
    yes_token_id := "Y1", no_token_id := "N1"
    close_timestamp := 100, binance_entry_price := 50000 }

/-- A persisted OPEN position whose close timestamp (100) is in the past. -/
def reloadedTrade : Trade :=
  { trade_id := "T0001", condition_id := "M1", order_id := "O1", asset := "BTC"
    direction := "UP", market_type := "5m"
    market_label := "BTC Up or Down - 5 Minutes"
    open_time_str := "a", close_time_str := "b"
    buy_price := 0.97, shares := 10, size_usdc := mkRat 97 10
    yes_token_id := "Y1", no_token_id := "N1"
    close_timestamp := 100, entry_time := 10, binance_entry_price := 50000
    status := "open" }

/-- The persisted document containing `reloadedTrade`. -/
def reloadedDoc : TradesDoc :=
  { balance := 50, counter := 1, trades := [reloadedTrade] }

/-- A book whose best bid (0.70) is below the 0.80 floor while the best ask
(0.85) is not. -/
def bidBelowFloorBook : Book :=
  { bids := [(0.70, 10)], asks := [(0.85, 5)] }

/-- Initial system state for the reference-price trace: one known BTC spot
price, nothing else. -/
def refTraceStart : SysState :=
  { tm := TMState.init 100, pending := [], spot := [("BTC", 50000)], refPrice := [] }

/-- Second BTC market entered while the first BTC position is still open. -/
def p972 : OpenParams :=
  { condition_id := "M2", order_id := "O2", asset := "BTC", direction := "UP"
    market_type := "15m", market_label := "BTC Up or Down - 15 Minutes"
    open_time_str := "c", close_time_str := "d"
    buy_price := 0.98, shares := 5, size_usdc := mkRat 49 10
    yes_token_id := "Y2", no_token_id := "N2"
    close_timestamp := 1000, binance_entry_price := 49000 }

/-- The trace: enter M1 (pins BTC at 50000), spot ticks to 49000, enter M2
(overwrites the pin) while the M1 position is still open. -/
def refTraceEvents : List Ev :=
  [.enter p971 0, .tick "BTC" 49000, .enter p972 10]

/-- A ledger holding one open trade, reached by a guarded open. -/
def oneTradeTM : TMState := (openTrade (TMState.init 100) p971 0).2

/-- System state wrapping `oneTradeTM`, with its market pending and the BTC
reference pinned, as after `_execute_buy`. -/
def oneTradeSys : SysState :=
  { tm := oneTradeTM, pending := ["M1"], spot := [("BTC", 50000)]
    refPrice := [("BTC", 50000)] }

/-- An entry-evaluator input on which every check passes. -/
def entryOkInput : EntryInput :=
  { market_type := "5m", direction := "UP", seconds_to_close := 60
    already_traded := false, best_ask := some 0.97, spread := some 0.01
    trend_1m := some 0, spot_price := some 50000 }

/-- Little-endian decimal value of a digit list. -/
def valDigits : List ℕ → ℕ
  | [] => 0
  | d :: ds => d + 10 * valDigits ds

/-- Invariant of reachable ledger states: trade ids are pairwise distinct and
all come from the id counter's past values. -/
def IdInv (s : TMState) : Prop :=
  (s.trades.map (fun t => t.trade_id)).Nodup ∧
    ∀ t ∈ s.trades, ∃ k, 1 ≤ k ∧ k ≤ s.counter ∧ t.trade_id = newId k

/-! ### Injectivity of `newId` -/

theorem digitsRevAux_lt_ten {fuel n d : ℕ} (h : d ∈ digitsRevAux fuel n) : d < 10 := by
  induction fuel generalizing n with
  | zero => simp [digitsRevAux] at h
  | succ f ih =>
    by_cases h0 : n = 0
    · simp [digitsRevAux, h0] at h
    · simp only [digitsRevAux, h0, if_false, List.mem_cons] at h
      rcases h with h | h
      · omega
      · exact ih h

theorem digitsRev_lt_ten {n d : ℕ} (h : d ∈ digitsRev n) : d < 10 :=
  digitsRevAux_lt_ten h

theorem valDigits_digitsRevAux (fuel n : ℕ) (h : n ≤ fuel) :
    valDigits (digitsRevAux fuel n) = n := by
  induction fuel generalizing n with
  | zero => interval_cases n; simp [digitsRevAux, valDigits]
  | succ f ih =>
    by_cases h0 : n = 0
    · simp [digitsRevAux, h0, valDigits]
    · have hdiv : n / 10 ≤ f := by omega
      simp only [digitsRevAux, h0, if_false, valDigits, ih _ hdiv]
      omega

theorem valDigits_digitsRev (n : ℕ) : valDigits (digitsRev n) = n :=
  valDigits_digitsRevAux n n le_rfl

theorem charVal_digitChar {d : ℕ} (h : d < 10) : charVal (digitChar d) = d := by
  interval_cases d <;> decide

theorem charVal_zeroChar : charVal '0' = 0 := by decide

theorem valChars_foldl (cs : List Char) (a : ℕ) :
    cs.foldl (fun a c => a * 10 + charVal c) a =
      a * 10 ^ cs.length + valChars cs := by
  induction cs generalizing a with
  | nil => simp [valChars]
  | cons c cs ih =>
    have h0 : valChars (c :: cs) = (0 * 10 + charVal c) * 10 ^ cs.length + valChars cs := by
      show List.foldl _ 0 (c :: cs) = _
      rw [List.foldl_cons, ih]
    rw [List.foldl_cons, ih, h0, List.length_cons]
    ring

theorem foldl_replicate_zero (k : ℕ) :
    List.foldl (fun a c => a * 10 + charVal c) 0 (List.replicate k '0') = 0 := by
  induction k with
  | zero => rfl
  | succ k ih =>
    simpa [List.replicate_succ, List.foldl_cons, charVal_zeroChar] using ih

theorem valChars_replicate_zero_append (k : ℕ) (cs : List Char) :
    valChars (List.replicate k '0' ++ cs) = valChars cs := by
  unfold valChars
  rw [List.foldl_append, foldl_replicate_zero]

theorem valChars_map_digitChar (ds : List ℕ) (h : ∀ d ∈ ds, d < 10) :
    valChars (ds.reverse.map digitChar) = valDigits ds := by
  induction ds with
  | nil => simp [valChars, valDigits]
  | cons d ds ih =>
    have hd : d < 10 := h d (by simp)
    have hds : ∀ x ∈ ds, x < 10 := fun x hx => h x (by simp [hx])
    simp only [List.reverse_cons, List.map_append, List.map_cons, List.map_nil, valDigits]
    show List.foldl _ 0 (ds.reverse.map digitChar ++ [digitChar d]) = _
    rw [List.foldl_append]
    simp only [List.foldl_cons, List.foldl_nil, charVal_digitChar hd]
    have := valChars_foldl (ds.reverse.map digitChar) 0
    simp only [zero_mul, zero_add] at this
    show valChars (ds.reverse.map digitChar) * 10 + d = _
    rw [ih hds]
    ring

theorem valChars_natChars (n : ℕ) : valChars (natChars n) = n := by
  unfold natChars
  rw [valChars_map_digitChar _ (fun d hd => digitsRev_lt_ten hd)]
  exact valDigits_digitsRev n

theorem valChars_pad4_natChars (n : ℕ) : valChars (pad4 (natChars n)) = n := by
  unfold pad4
  rw [valChars_replicate_zero_append, valChars_natChars]

theorem newId_injective : Function.Injective newId := by
  intro a b h
  unfold newId at h
  have hdata : 'T' :: pad4 (natChars a) = 'T' :: pad4 (natChars b) := by
    injection h
  have hp : pad4 (natChars a) = pad4 (natChars b) := by
    injection hdata
  have := congrArg valChars hp
  rwa [valChars_pad4_natChars, valChars_pad4_natChars] at this

/-! ### Dictionary lemmas -/

theorem updateTrades_append {l : List Trade} {t : Trade}
    (h : l.any (fun u => u.trade_id = t.trade_id) = false) :
    updateTrades l t = l ++ [t] := by
  unfold updateTrades
  rw [h]
  simp

theorem updateTrades_replace {l : List Trade} {t : Trade}
    (h : l.any (fun u => u.trade_id = t.trade_id) = true) :
    updateTrades l t = l.map (fun u => if u.trade_id = t.trade_id then t else u) := by
  unfold updateTrades
  rw [h]
  simp

theorem mem_updateTrades_self (l : List Trade) (t : Trade) : t ∈ updateTrades l t := by
  unfold updateTrades
  by_cases h : l.any (fun u => u.trade_id = t.trade_id) = true
  · rw [if_pos h]
    rw [List.any_eq_true] at h
    obtain ⟨u, hu, hid⟩ := h
    rw [List.mem_map]
    refine ⟨u, hu, ?_⟩
    simp only [decide_eq_true_eq] at hid
    rw [if_pos hid]
  · rw [Bool.not_eq_true] at h
    rw [if_neg (by simp [h])]
    simp

theorem lookupTrade_updateTrades_self (l : List Trade) (t : Trade) :
    lookupTrade (updateTrades l t) t.trade_id = some t := by
  unfold lookupTrade updateTrades
  by_cases h : l.any (fun u => u.trade_id = t.trade_id) = true
  · rw [if_pos h]
    induction l with
    | nil => simp at h
    | cons u rest ih =>
      by_cases hu : u.trade_id = t.trade_id
      · simp [List.find?, hu]
      · have hrest : rest.any (fun v => v.trade_id = t.trade_id) = true := by
          simpa [List.any_cons, hu] using h
        simpa [List.find?, hu] using ih hrest
  · rw [if_neg h]
    rw [Bool.not_eq_true] at h
    rw [List.any_eq_false] at h
    rw [List.find?_append]
    have hnone : l.find? (fun u => u.trade_id = t.trade_id) = none := by
      rw [List.find?_eq_none]
      intro u hu
      exact h u hu
    simp [hnone, List.find?]

/-- A found trade carries the looked-up key. -/
theorem lookupTrade_id {l : List Trade} {id : String} {t : Trade}
    (h : lookupTrade l id = some t) : t.trade_id = id := by
  unfold lookupTrade at h
  have := List.find?_some h
  simpa using this

theorem lookupTrade_mem {l : List Trade} {id : String} {t : Trade}
    (h : lookupTrade l id = some t) : t ∈ l :=
  List.mem_of_find?_eq_some h

/-- On a list whose trade ids are distinct, any member sharing the id of a
member equals it. -/
theorem mem_id_unique {l : List Trade} (hnd : (l.map (fun u => u.trade_id)).Nodup)
    {u v : Trade} (hu : u ∈ l) (hv : v ∈ l) (h : u.trade_id = v.trade_id) : u = v := by
  have := List.inj_on_of_nodup_map hnd
  exact this hu hv h

/-! ### String-keyed association list lemmas -/

theorem getAssoc_setAssoc_self (l : List (String × ℚ)) (k : String) (v : ℚ) :
    getAssoc (setAssoc l k v) k = some v := by
  unfold getAssoc setAssoc
  by_cases h : l.any (fun e => e.1 = k) = true
  · rw [if_pos h]
    induction l with
    | nil => simp at h
    | cons e rest ih =>
      by_cases he : e.1 = k
      · simp [List.find?, he]
      · have hrest : rest.any (fun x => x.1 = k) = true := by
          simpa [List.any_cons, he] using h
        simpa [List.find?, he] using ih hrest
  · rw [if_neg h]
    rw [Bool.not_eq_true] at h
    rw [List.any_eq_false] at h
    rw [List.find?_append]
    have hnone : l.find? (fun e => e.1 = k) = none := by
      rw [List.find?_eq_none]
      intro e he
      exact h e he
    simp [hnone, List.find?]

theorem getAssoc_setAssoc_other (l : List (String × ℚ)) (k k' : String) (v : ℚ)
    (h : k' ≠ k) : getAssoc (setAssoc l k v) k' = getAssoc l k' := by
  unfold getAssoc setAssoc
  by_cases ha : l.any (fun e => e.1 = k) = true
  · rw [if_pos ha, List.find?_map]
    have hpf : ((fun e : String × ℚ => decide (e.1 = k')) ∘
        fun e => if e.1 = k then (k, v) else e) =
        fun e : String × ℚ => decide (e.1 = k') := by
      funext e
      by_cases he : e.1 = k
      · have h1 : ¬(k = k') := fun hk => h hk.symm
        simp [he, h1]
      · simp [he]
    rw [hpf]
    cases hf : l.find? (fun e => decide (e.1 = k')) with
    | none => simp
    | some e =>
      have he' : e.1 = k' := by simpa using List.find?_some hf
      have hek : ¬(e.1 = k) := by
        rw [he']
        exact h
      simp [hek]
  · rw [if_neg ha, List.find?_append]
    cases hf : l.find? (fun e => decide (e.1 = k')) with
    | none =>
      have h1 : ¬(k = k') := fun hk => h hk.symm
      simp [hf, List.find?, h1]
    | some e => simp [hf]

theorem getAssoc_delAssoc_self (l : List (String × ℚ)) (k : String) :
    getAssoc (delAssoc l k) k = none := by
  unfold getAssoc delAssoc
  have hf : (l.filter (fun e => decide ¬e.1 = k)).find? (fun e => decide (e.1 = k)) =
      none := by
    rw [List.find?_eq_none]
    intro e he
    rw [List.mem_filter] at he
    simpa using he.2
  rw [hf]
  rfl

theorem getAssoc_delAssoc_other (l : List (String × ℚ)) (k k' : String)
    (h : k' ≠ k) : getAssoc (delAssoc l k) k' = getAssoc l k' := by
  unfold getAssoc delAssoc
  induction l with
  | nil => rfl
  | cons e rest ih =>
    by_cases hek : e.1 = k
    · have hk' : ¬(e.1 = k') := by
        rw [hek]
        exact fun hk => h hk.symm
      rw [List.filter_cons_of_neg (by simpa using hek),
        List.find?_cons_of_neg _ (by simpa using hk')]
      exact ih
    · rw [List.filter_cons_of_pos (by simpa using hek)]
      by_cases he' : e.1 = k'
      · rw [List.find?_cons_of_pos _ (by simpa using he'),
          List.find?_cons_of_pos _ (by simpa using he')]
      · rw [List.find?_cons_of_neg _ (by simpa using he'),
          List.find?_cons_of_neg _ (by simpa using he')]
        exact ih

/-! ### Ledger invariants -/

theorem fresh_id {s : TMState} (hinv : IdInv s) :
    s.trades.any (fun u => u.trade_id = newId (s.counter + 1)) = false := by
  rw [List.any_eq_false]
  intro u hu
  simp only [decide_eq_true_eq]
  intro heq
  obtain ⟨k, hk1, hk2, hk3⟩ := hinv.2 u hu
  rw [hk3] at heq
  have := newId_injective heq
  omega

theorem any_id_of_lookup {l : List Trade} {id : String} {t : Trade}
    (h : lookupTrade l id = some t) :
    l.any (fun u => u.trade_id = t.trade_id) = true := by
  rw [List.any_eq_true]
  exact ⟨t, lookupTrade_mem h, by simp⟩

theorem map_id_updateTrades_found {l : List Trade} {t' : Trade}
    (h : l.any (fun u => u.trade_id = t'.trade_id) = true) :
    (updateTrades l t').map (fun u => u.trade_id) = l.map (fun u => u.trade_id) := by
  rw [updateTrades_replace h, List.map_map]
  apply List.map_congr_left
  intro u _
  by_cases hu : u.trade_id = t'.trade_id
  · simp [hu]
  · simp [hu]

theorem IdInv_openTrade {s : TMState} (hinv : IdInv s) (p : OpenParams) (now : ℚ) :
    IdInv (openTrade s p now).2 := by
  have hfresh := fresh_id hinv
  obtain ⟨hnd, hrange⟩ := hinv
  constructor
  · show ((updateTrades s.trades _).map _).Nodup
    rw [updateTrades_append hfresh, List.map_append]
    simp only [List.map_cons, List.map_nil]
    rw [List.nodup_append]
    refine ⟨hnd, List.nodup_singleton _, ?_⟩
    intro x hx
    simp only [List.mem_singleton]
    intro hx1
    rw [List.mem_map] at hx
    obtain ⟨u, hu, hux⟩ := hx
    rw [List.any_eq_false] at hfresh
    have := hfresh u hu
    simp only [decide_eq_true_eq] at this
    exact this (by rw [hux, hx1])
  · intro t ht
    show ∃ k, 1 ≤ k ∧ k ≤ s.counter + 1 ∧ _
    rw [show (openTrade s p now).2.trades = updateTrades s.trades (openTrade s p now).1
        from rfl, updateTrades_append hfresh, List.mem_append] at ht
    rcases ht with ht | ht
    · obtain ⟨k, h1, h2, h3⟩ := hrange t ht
      exact ⟨k, h1, by omega, h3⟩
    · rw [List.mem_singleton] at ht
      refine ⟨s.counter + 1, by omega, le_rfl, ?_⟩
      rw [ht]
      rfl

theorem IdInv_resolve {s s' : TMState} {t' : Trade}
    (htrades : s'.trades = updateTrades s.trades t')
    (hcounter : s'.counter = s.counter)
    (hany : s.trades.any (fun u => u.trade_id = t'.trade_id) = true)
    (hinv : IdInv s) : IdInv s' := by
  obtain ⟨hnd, hrange⟩ := hinv
  constructor
  · rw [htrades, map_id_updateTrades_found hany]
    exact hnd
  · intro t ht
    rw [htrades, updateTrades_replace hany, List.mem_map] at ht
    obtain ⟨u, hu, hut⟩ := ht
    rw [hcounter]
    by_cases hid : u.trade_id = t'.trade_id
    · rw [if_pos hid] at hut
      obtain ⟨k, h1, h2, h3⟩ := hrange u hu
      exact ⟨k, h1, h2, by rw [← hut, ← hid, ← h3]⟩
    · rw [if_neg hid] at hut
      obtain ⟨k, h1, h2, h3⟩ := hrange u hu
      exact ⟨k, h1, h2, by rw [← hut, ← h3]⟩

theorem IdInv_applyOp {s : TMState} (hinv : IdInv s) (op : Op) :
    IdInv (applyOp s op) := by
  cases op with
  | openT p now => exact IdInv_openTrade hinv p now
  | win id now =>
    show IdInv ((resolveWin s id now).getD s)
    unfold resolveWin
    cases hl : lookupTrade s.trades id with
    | none => exact hinv
    | some t =>
      simp only [Option.getD_some]
      refine IdInv_resolve rfl rfl ?_ hinv
      exact @any_id_of_lookup s.trades id t hl
  | loss id now =>
    show IdInv ((resolveLoss s id now).getD s)
    unfold resolveLoss
    cases hl : lookupTrade s.trades id with
    | none => exact hinv
    | some t =>
      simp only [Option.getD_some]
      refine IdInv_resolve rfl rfl ?_ hinv
      exact @any_id_of_lookup s.trades id t hl
  | cutloss id sp r now =>
    show IdInv ((resolveCutloss s id sp r now).getD s)
    unfold resolveCutloss
    cases hl : lookupTrade s.trades id with
    | none => exact hinv
    | some t =>
      simp only [Option.getD_some]
      refine IdInv_resolve rfl rfl ?_ hinv
      exact @any_id_of_lookup s.trades id t hl
  | setBal b => exact hinv

theorem IdInv_reachable {s : TMState} (h : Reachable s) : IdInv s := by
  induction h with
  | init b => exact ⟨List.nodup_nil, by intro t ht; simp [TMState.init] at ht⟩
  | step op _ ih => exact IdInv_applyOp ih op

theorem reachable_of_guarded {s : TMState} (h : GuardedReachable s) : Reachable s := by
  induction h with
  | init b => exact Reachable.init b
  | openT p now _ _ ih => exact Reachable.step (.openT p now) ih
  | win id now _ ih => exact Reachable.step (.win id now) ih
  | loss id now _ ih => exact Reachable.step (.loss id now) ih
  | cutloss id sp r now _ ih => exact Reachable.step (.cutloss id sp r now) ih
  | setBal b _ ih => exact Reachable.step (.setBal b) ih

theorem map_cid_updateTrades_resolve {l : List Trade} {t t' : Trade}
    (hnd : (l.map (fun u => u.trade_id)).Nodup)
    (ht : t ∈ l) (hid : t'.trade_id = t.trade_id)
    (hcid : t'.condition_id = t.condition_id) :
    (updateTrades l t').map (fun u => u.condition_id) =
      l.map (fun u => u.condition_id) := by
  have hany : l.any (fun u => u.trade_id = t'.trade_id) = true := by
    rw [List.any_eq_true]
    exact ⟨t, ht, by simp [hid]⟩
  rw [updateTrades_replace hany, List.map_map]
  apply List.map_congr_left
  intro u hu
  by_cases hu' : u.trade_id = t'.trade_id
  · have hut : u = t := mem_id_unique hnd hu ht (by rw [hu', hid])
    simp only [Function.comp_apply, if_pos hu']
    rw [hcid, hut]
  · simp only [Function.comp_apply, if_neg hu']

/-- Along guarded traces, condition ids of stored trades stay pairwise
distinct. -/
theorem guarded_cid_nodup {s : TMState} (h : GuardedReachable s) :
    (s.trades.map (fun t => t.condition_id)).Nodup := by
  induction h with
  | init b => exact List.nodup_nil
  | openT p now hguard hprev ih =>
    have hinv := IdInv_reachable (reachable_of_guarded hprev)
    have hfresh := fresh_id hinv
    show ((updateTrades _ _).map _).Nodup
    rw [updateTrades_append hfresh, List.map_append]
    simp only [List.map_cons, List.map_nil]
    rw [List.nodup_append]
    refine ⟨ih, List.nodup_singleton _, ?_⟩
    intro x hx
    simp only [List.mem_singleton]
    intro hx1
    rw [List.mem_map] at hx
    obtain ⟨u, hu, hux⟩ := hx
    unfold alreadyTraded at hguard
    rw [List.any_eq_false] at hguard
    have := hguard u hu
    simp only [decide_eq_true_eq] at this
    exact this (by rw [hux, hx1])
  | win id now hprev ih =>
    have hinv := IdInv_reachable (reachable_of_guarded hprev)
    show (((resolveWin _ id now).getD _).trades.map _).Nodup
    unfold resolveWin
    cases hl : lookupTrade _ id with
    | none => exact ih
    | some t =>
      simp only [Option.getD_some]
      rw [map_cid_updateTrades_resolve hinv.1 (lookupTrade_mem hl) (by rfl) (by rfl)]
      exact ih
  | loss id now hprev ih =>
    have hinv := IdInv_reachable (reachable_of_guarded hprev)
    show (((resolveLoss _ id now).getD _).trades.map _).Nodup
    unfold resolveLoss
    cases hl : lookupTrade _ id with
    | none => exact ih
    | some t =>
      simp only [Option.getD_some]
      rw [map_cid_updateTrades_resolve hinv.1 (lookupTrade_mem hl) (by rfl) (by rfl)]
      exact ih
  | cutloss id sp r now hprev ih =>
    have hinv := IdInv_reachable (reachable_of_guarded hprev)
    show (((resolveCutloss _ id sp r now).getD _).trades.map _).Nodup
    unfold resolveCutloss
    cases hl : lookupTrade _ id with
    | none => exact ih
    | some t =>
      simp only [Option.getD_some]
      rw [map_cid_updateTrades_resolve hinv.1 (lookupTrade_mem hl) (by rfl) (by rfl)]
      exact ih
  | setBal b hprev ih => exact ih

/-! ### Unfolding lemmas for the resolve operations -/

theorem resolveWin_eq {s : TMState} {id : String} {t : Trade}
    (h : lookupTrade s.trades id = some t) (now : ℚ) :
    resolveWin s id now = some { s with
      trades := updateTrades s.trades (winUpdate t now),
      balance := s.balance + t.shares } := by
  unfold resolveWin
  rw [h]

theorem resolveLoss_eq {s : TMState} {id : String} {t : Trade}
    (h : lookupTrade s.trades id = some t) (now : ℚ) :
    resolveLoss s id now = some { s with
      trades := updateTrades s.trades (lossUpdate t now) } := by
  unfold resolveLoss
  rw [h]

theorem resolveCutloss_eq {s : TMState} {id : String} {t : Trade}
    (h : lookupTrade s.trades id = some t) (sp : ℚ) (r : String) (now : ℚ) :
    resolveCutloss s id sp r now = some { s with
      trades := updateTrades s.trades (cutlossUpdate t sp r now),
      balance := s.balance + t.shares * sp } := by
  unfold resolveCutloss
  rw [h]

/-! ### Claim theorems -/

/-- C1: the claim says every `resolve*` call on a position that is not OPEN
fails with `UnknownPosition` and leaves the balance unchanged. The code has no
such guard: after opening T0001 (10 shares at 0.97 for 9.7 USDC, balance
100 → 90.3) and winning it (balance 100.3), a second `resolve_win` on the
same, already-WON id succeeds again and credits the balance a second time
(110.3). -/
theorem resolve_win_twice_double_credits :
    (resolveWin (openTrade (TMState.init 100) p971 0).2 "T0001" 1).map
        TMState.balance = some (mkRat 1003 10) ∧
    ((resolveWin (openTrade (TMState.init 100) p971 0).2 "T0001" 1).map
        (fun s2 => (lookupTrade s2.trades "T0001").map Trade.status)) =
      some (some "win") ∧
    ((resolveWin (openTrade (TMState.init 100) p971 0).2 "T0001" 1).bind
        (fun s2 => resolveWin s2 "T0001" 2)).map TMState.balance =
      some (mkRat 1103 10) := by
  decide

/-- C2: the claim says that after reloading the ledger from a persisted
document with one OPEN position past its close timestamp, the next outcome
pass polls that position's resolution. The code does not: `_pending_outcomes`
starts empty after a reload and `_check_outcomes` skips every open trade not
in it, so nothing is polled and the position stays OPEN even though the check
runs after close time (200 ≥ 100) and the venue would report YES. -/
theorem reload_skips_persisted_open_position :
    reloadedTrade.status = "open" ∧
    reloadedTrade.close_timestamp < 200 ∧
    (checkOutcomes (initFromLoad reloadedDoc) (fun _ => some "YES") 200).2 = [] ∧
    (checkOutcomes (initFromLoad reloadedDoc) (fun _ => some "YES") 200).1.tm =
      loadTM reloadedDoc := by
  decide

/-- C4: for open followed by exactly one resolve on the fresh id, the balance
equals the balance before the open minus the committed size plus the realized
payout — `shares×1.0` for WIN (pnl recorded as `shares×(1−buyPrice)`), `0`
for LOSS, `shares×sellPrice` for CUTLOSS. -/
theorem open_resolve_balance (s : TMState) (p : OpenParams) (n n' sp : ℚ)
    (r : String) :
    ((resolveWin (openTrade s p n).2 (openTrade s p n).1.trade_id n').map
        TMState.balance = some (s.balance - p.size_usdc + p.shares * 1) ∧
      (resolveWin (openTrade s p n).2 (openTrade s p n).1.trade_id n').bind
        (fun s2 => (lookupTrade s2.trades (openTrade s p n).1.trade_id).bind
          Trade.pnl_usdc) = some (p.shares * (1 - p.buy_price))) ∧
    (resolveLoss (openTrade s p n).2 (openTrade s p n).1.trade_id n').map
        TMState.balance = some (s.balance - p.size_usdc + 0) ∧
    (resolveCutloss (openTrade s p n).2 (openTrade s p n).1.trade_id sp r n').map
        TMState.balance = some (s.balance - p.size_usdc + p.shares * sp) := by
  have hl : lookupTrade (openTrade s p n).2.trades (openTrade s p n).1.trade_id =
      some (openTrade s p n).1 :=
    lookupTrade_updateTrades_self s.trades (openTrade s p n).1
  refine ⟨⟨?_, ?_⟩, ?_, ?_⟩
  · rw [resolveWin_eq hl]
    show some (s.balance - p.size_usdc + p.shares) = _
    rw [mul_one]
  · rw [resolveWin_eq hl]
    have hl2 : lookupTrade (updateTrades (openTrade s p n).2.trades
          (winUpdate (openTrade s p n).1 n')) (openTrade s p n).1.trade_id =
        some (winUpdate (openTrade s p n).1 n') :=
      lookupTrade_updateTrades_self (openTrade s p n).2.trades _
    show (lookupTrade (updateTrades (openTrade s p n).2.trades
      (winUpdate (openTrade s p n).1 n')) (openTrade s p n).1.trade_id).bind
      Trade.pnl_usdc = _
    rw [hl2]
    rfl
  · rw [resolveLoss_eq hl]
    show some (s.balance - p.size_usdc) = _
    rw [add_zero]
  · rw [resolveCutloss_eq hl]
    rfl

theorem binanceCutloss_ne_pmDrop (cfg : StratConfig) (dir : String)
    (change : Option ℚ) : binanceCutloss cfg dir change ≠ some CutReason.pmDrop := by
  unfold binanceCutloss
  cases change with
  | none => simp
  | some c =>
    show (if dir = "UP" ∧ c ≤ -cfg.cutloss_binance_pct then some CutReason.binanceDrop
      else if dir = "DOWN" ∧ c ≥ cfg.cutloss_binance_pct then some CutReason.binanceRise
      else none) ≠ some CutReason.pmDrop
    split_ifs with h1 h2 <;> simp

/-- C3 counterexample: the claim says the market-side cut-loss check triggers
exactly when the best BID is strictly below the floor. With the default floor
0.80, a book whose best bid is 0.70 (< 0.80) but whose best ask is 0.85 does
not trigger the check — the code compares the best ask, not the best bid. -/
theorem cutloss_bid_below_floor_no_trigger :
    getBestBid bidBelowFloorBook = some 0.70 ∧
    (0.70 : ℚ) < defaultConfig.cutloss_pm_price ∧
    checkCutloss defaultConfig "UP" bidBelowFloorBook none = none := by
  decide

/-- C3 amended: the market-side cut-loss check triggers exactly when the
current best ASK for the position's YES token (what `get_best_ask` returns)
is strictly below the configured floor `CUTLOSS_PM_PRICE`. -/
theorem cutloss_market_side_iff (cfg : StratConfig) (dir : String) (book : Book)
    (change : Option ℚ) :
    checkCutloss cfg dir book change = some CutReason.pmDrop ↔
      ∃ a, getBestAsk book = some a ∧ a < cfg.cutloss_pm_price := by
  unfold checkCutloss
  cases hb : getBestAsk book with
  | none =>
    simp only [hb]
    constructor
    · intro h
      exact absurd h (binanceCutloss_ne_pmDrop cfg dir change)
    · rintro ⟨a, ha, _⟩
      cases ha
  | some a =>
    simp only [hb]
    by_cases hlt : a < cfg.cutloss_pm_price
    · rw [if_pos hlt]
      constructor
      · intro _
        exact ⟨a, rfl, hlt⟩
      · intro _
        rfl
    · rw [if_neg hlt]
      constructor
      · intro h
        exact absurd h (binanceCutloss_ne_pmDrop cfg dir change)
      · rintro ⟨a', ha', hlt'⟩
        rw [Option.some_inj] at ha'
        subst ha'
        exact absurd hlt' hlt

/-- C5: the feed-side cut-loss branch fires exactly when the percentage
change since entry crosses the threshold adversely — for an UP position when
`change ≤ −threshold`, for a DOWN position when `change ≥ +threshold` — and
never fires on a favorable move of equal or greater magnitude. -/
theorem feed_cutloss_adverse_only (cfg : StratConfig) (c : ℚ)
    (h : 0 < cfg.cutloss_binance_pct) :
    ((binanceCutloss cfg "UP" (some c)).isSome ↔ c ≤ -cfg.cutloss_binance_pct) ∧
    ((binanceCutloss cfg "DOWN" (some c)).isSome ↔ cfg.cutloss_binance_pct ≤ c) ∧
    (cfg.cutloss_binance_pct ≤ c → binanceCutloss cfg "UP" (some c) = none) ∧
    (c ≤ -cfg.cutloss_binance_pct → binanceCutloss cfg "DOWN" (some c) = none) := by
  have hud : ¬(("UP" : String) = "DOWN") := by decide
  have hdu : ¬(("DOWN" : String) = "UP") := by decide
  unfold binanceCutloss
  refine ⟨?_, ?_, ?_, ?_⟩
  · by_cases hc : c ≤ -cfg.cutloss_binance_pct
    · simp [hc]
    · simp [hc, hud]
  · by_cases hc : cfg.cutloss_binance_pct ≤ c
    · simp [hc, hdu]
    · simp [hc, hdu]
  · intro hc
    have h1 : ¬(c ≤ -cfg.cutloss_binance_pct) := by linarith
    simp [h1, hud]
  · intro hc
    have h1 : ¬(cfg.cutloss_binance_pct ≤ c) := by linarith
    simp [h1, hdu]

/-- Witness for C5 at the default 0.3 % threshold: a favorable move of
exactly the threshold magnitude does not fire for an UP position. -/
theorem feed_cutloss_adverse_only_check :
    binanceCutloss defaultConfig "UP" (some 0.003) = none :=
  (feed_cutloss_adverse_only defaultConfig 0.003 (by decide)).2.2.1 (by decide)

/-- C8 counterexample: the claim says the ledger itself enforces at most one
position per market id however callers invoke `open`. Calling `open_trade`
twice with the same market "M1" yields a reachable ledger state holding two
positions that share the market id — the dedup lives in the caller, not the
ledger. -/
theorem ledger_allows_duplicate_market :
    Reachable (applyOp (applyOp (TMState.init 100) (Op.openT p971 0))
      (Op.openT p971 1)) ∧
    (applyOp (applyOp (TMState.init 100) (Op.openT p971 0))
        (Op.openT p971 1)).trades.map Trade.condition_id = ["M1", "M1"] := by
  constructor
  · exact Reachable.step (Op.openT p971 1)
      (Reachable.step (Op.openT p971 0) (Reachable.init 100))
  · decide

/-- C8 amended: market-id uniqueness holds for every ledger state reachable
through opens guarded by the caller's `already_traded` check (as
`Strategy._should_enter` and `market_scanner_loop` guard them); the ledger's
own `open_trade` does not enforce it. -/
theorem guarded_market_uniqueness {s : TMState} (h : GuardedReachable s) :
    (s.trades.map (fun t => t.condition_id)).Nodup :=
  guarded_cid_nodup h

/-- Witness for the C8 amended claim on a one-guarded-open ledger. -/
theorem guarded_market_uniqueness_check :
    ((openTrade (TMState.init 100) p971 0).2.trades.map
      (fun t => t.condition_id)).Nodup :=
  guarded_market_uniqueness
    (GuardedReachable.openT p971 0 (by decide) (GuardedReachable.init 100))

theorem alreadyTraded_eq_of_map_cid_eq {l₁ l₂ : List Trade}
    (h : l₁.map (fun u => u.condition_id) = l₂.map (fun u => u.condition_id))
    (c : String) :
    l₁.any (fun u => u.condition_id = c) = l₂.any (fun u => u.condition_id = c) := by
  have h1 : ∀ l : List Trade, l.any (fun u => u.condition_id = c) =
      (l.map (fun u => u.condition_id)).any (fun x => x = c) := by
    intro l
    induction l with
    | nil => rfl
    | cons u rest ih => simp [List.any_cons, ih]
  rw [h1, h1, h]

/-- C9: `already_traded(marketId)` is true immediately after `open`, and once
true it stays true after every ledger operation — opens, any of the three
resolutions, and balance resets — because positions are never deleted. -/
theorem already_attempted_persists (s : TMState) (p : OpenParams) (now : ℚ)
    (c : String) (op : Op) (hs : Reachable s) :
    alreadyTraded (openTrade s p now).2 p.condition_id = true ∧
    (alreadyTraded s c = true → alreadyTraded (applyOp s op) c = true) := by
  have hinv := IdInv_reachable hs
  constructor
  · unfold alreadyTraded
    rw [List.any_eq_true]
    refine ⟨(openTrade s p now).1, mem_updateTrades_self _ _, ?_⟩
    simp only [decide_eq_true_eq]
    rfl
  · intro hc
    cases op with
    | openT p' now' =>
      have hfresh := fresh_id hinv
      show alreadyTraded (openTrade s p' now').2 c = true
      unfold alreadyTraded
      rw [show (openTrade s p' now').2.trades =
          updateTrades s.trades (openTrade s p' now').1 from rfl,
        updateTrades_append hfresh, List.any_append]
      unfold alreadyTraded at hc
      rw [hc]
      rfl
    | win id now' =>
      show alreadyTraded ((resolveWin s id now').getD s) c = true
      cases hl : lookupTrade s.trades id with
      | none =>
        unfold resolveWin
        rw [hl]
        exact hc
      | some t =>
        rw [resolveWin_eq hl]
        simp only [Option.getD_some]
        show (updateTrades s.trades (winUpdate t now')).any
          (fun u => u.condition_id = c) = true
        rw [alreadyTraded_eq_of_map_cid_eq
          (map_cid_updateTrades_resolve hinv.1 (lookupTrade_mem hl) (by rfl) (by rfl)) c]
        exact hc
    | loss id now' =>
      show alreadyTraded ((resolveLoss s id now').getD s) c = true
      cases hl : lookupTrade s.trades id with
      | none =>
        unfold resolveLoss
        rw [hl]
        exact hc
      | some t =>
        rw [resolveLoss_eq hl]
        simp only [Option.getD_some]
        show (updateTrades s.trades (lossUpdate t now')).any
          (fun u => u.condition_id = c) = true
        rw [alreadyTraded_eq_of_map_cid_eq
          (map_cid_updateTrades_resolve hinv.1 (lookupTrade_mem hl) (by rfl) (by rfl)) c]
        exact hc
    | cutloss id sp r now' =>
      show alreadyTraded ((resolveCutloss s id sp r now').getD s) c = true
      cases hl : lookupTrade s.trades id with
      | none =>
        unfold resolveCutloss
        rw [hl]
        exact hc
      | some t =>
        rw [resolveCutloss_eq hl]
        simp only [Option.getD_some]
        show (updateTrades s.trades (cutlossUpdate t sp r now')).any
          (fun u => u.condition_id = c) = true
        rw [alreadyTraded_eq_of_map_cid_eq
          (map_cid_updateTrades_resolve hinv.1 (lookupTrade_mem hl) (by rfl) (by rfl)) c]
        exact hc
    | setBal b => exact hc

/-- Witness for C9: after opening M1 and then winning the position, M1 is
still reported as already attempted. -/
theorem already_attempted_persists_check :
    alreadyTraded (applyOp (applyOp (TMState.init 5) (Op.openT p971 0))
      (Op.win "T0001" 3)) "M1" = true :=
  (already_attempted_persists (applyOp (TMState.init 5) (Op.openT p971 0))
      p971 0 "M1" (Op.win "T0001" 3)
      (Reachable.step (Op.openT p971 0) (Reachable.init 5))).2 (by decide)

/-- C10: when the cut-loss sell order raises, the position is still resolved
to CUTLOSS in the same cycle with sellPrice 0.0, the balance is credited a
zero payout, and the recorded pnl is minus the full committed size — the
transition is not rolled back. -/
theorem cutloss_sell_failure_records_zero (s : SysState) (id : String)
    (bids : List (ℚ × ℚ)) (r : String) (now : ℚ) (t : Trade)
    (h : lookupTrade s.tm.trades id = some t) :
    (lookupTrade (executeCutloss s id bids false r now).tm.trades id).map
        Trade.status = some "cutloss" ∧
    (lookupTrade (executeCutloss s id bids false r now).tm.trades id).bind
        Trade.sell_price = some 0 ∧
    (lookupTrade (executeCutloss s id bids false r now).tm.trades id).bind
        Trade.pnl_usdc = some (-t.size_usdc) ∧
    (executeCutloss s id bids false r now).tm.balance = s.tm.balance := by
  have hid := lookupTrade_id h
  subst hid
  have hres := resolveCutloss_eq h (cutlossSellPrice bids false) r now
  unfold executeCutloss step
  simp only [h, hres]
  have hl2 : lookupTrade (updateTrades s.tm.trades
        (cutlossUpdate t (cutlossSellPrice bids false) r now)) t.trade_id =
      some (cutlossUpdate t (cutlossSellPrice bids false) r now) :=
    lookupTrade_updateTrades_self s.tm.trades _
  refine ⟨?_, ?_, ?_, ?_⟩
  · show (lookupTrade (updateTrades s.tm.trades
        (cutlossUpdate t (cutlossSellPrice bids false) r now)) t.trade_id).map
        Trade.status = some "cutloss"
    rw [hl2]
    rfl
  · show (lookupTrade (updateTrades s.tm.trades
        (cutlossUpdate t (cutlossSellPrice bids false) r now)) t.trade_id).bind
        Trade.sell_price = some 0
    rw [hl2]
    rfl
  · show (lookupTrade (updateTrades s.tm.trades
        (cutlossUpdate t (cutlossSellPrice bids false) r now)) t.trade_id).bind
        Trade.pnl_usdc = some (-t.size_usdc)
    rw [hl2]
    show some (t.shares * 0 - t.size_usdc) = some (-t.size_usdc)
    rw [mul_zero, zero_sub]
  · show s.tm.balance + t.shares * 0 = s.tm.balance
    rw [mul_zero, add_zero]

/-- Witness for C10: the concrete one-open-trade system state with a failing
sell order: T0001 ends CUTLOSS at sell price 0 with pnl −9.7 and an unchanged
balance. -/
theorem cutloss_sell_failure_records_zero_check :
    (lookupTrade (executeCutloss oneTradeSys "T0001" [] false "pm drop" 50).tm.trades
        "T0001").map Trade.status = some "cutloss" ∧
    (executeCutloss oneTradeSys "T0001" [] false "pm drop" 50).tm.balance =
      oneTradeSys.tm.balance := by
  have hl : lookupTrade oneTradeSys.tm.trades "T0001" =
      some (openTrade (TMState.init 100) p971 0).1 := by decide
  have hmain := cutloss_sell_failure_records_zero oneTradeSys "T0001" [] "pm drop" 50
    (openTrade (TMState.init 100) p971 0).1 hl
  exact ⟨hmain.1, hmain.2.2.2⟩

/-- C7 counterexample: the claim says each position's reference price is
pinned once at entry and never overwritten while the position is open. In the
trace enter(M1,BTC) → tick(BTC,49000) → enter(M2,BTC), entering M1 pins BTC
at 50000, but entering the second BTC market overwrites the pin to 49000
while the M1 position (T0001) is still OPEN — the pin is keyed by asset, not
by position. -/
theorem reference_price_overwritten :
    getAssoc (runEvents refTraceStart [Ev.enter p971 0]).refPrice "BTC" =
      some 50000 ∧
    (lookupTrade (runEvents refTraceStart refTraceEvents).tm.trades
      "T0001").map Trade.status = some "open" ∧
    getAssoc (runEvents refTraceStart refTraceEvents).refPrice "BTC" =
      some 49000 := by
  decide

/-- C7 amended: the reference price is keyed per asset. A price tick never
touches it; an entry pins the entering position's asset (at the current spot
price, when one is known) and leaves other assets unchanged; a cut-loss or
outcome resolution clears the resolved position's asset and leaves other
assets unchanged. Hence a position that is the only position on its asset has
its reference pinned exactly once at entry and cleared exactly once at its
terminal resolution; concurrent positions on one asset overwrite or clear
each other's reference. -/
theorem reference_price_per_asset (s : SysState) (a : String) :
    (∀ a' v, (step s (Ev.tick a' v)).refPrice = s.refPrice) ∧
    (∀ p now v, getAssoc s.spot p.asset = some v →
      getAssoc (step s (Ev.enter p now)).refPrice p.asset = some v) ∧
    (∀ p now, a ≠ p.asset →
      getAssoc (step s (Ev.enter p now)).refPrice a = getAssoc s.refPrice a) ∧
    (∀ id bids ok r now t, lookupTrade s.tm.trades id = some t →
      getAssoc (step s (Ev.cutloss id bids ok r now)).refPrice t.asset = none ∧
      (a ≠ t.asset →
        getAssoc (step s (Ev.cutloss id bids ok r now)).refPrice a =
          getAssoc s.refPrice a)) ∧
    (∀ id win now t, lookupTrade s.tm.trades id = some t →
      getAssoc (step s (Ev.outcome id win now)).refPrice t.asset = none ∧
      (a ≠ t.asset →
        getAssoc (step s (Ev.outcome id win now)).refPrice a =
          getAssoc s.refPrice a)) := by
  refine ⟨?_, ?_, ?_, ?_, ?_⟩
  · intro a' v
    rfl
  · intro p now v hv
    show getAssoc (setReferencePrice { s with tm := (openTrade s.tm p now).2 }
      p.asset).refPrice p.asset = some v
    unfold setReferencePrice
    rw [show getAssoc ({ s with tm := (openTrade s.tm p now).2 } : SysState).spot
      p.asset = some v from hv]
    exact getAssoc_setAssoc_self _ _ _
  · intro p now ha
    show getAssoc (setReferencePrice { s with tm := (openTrade s.tm p now).2 }
      p.asset).refPrice a = getAssoc s.refPrice a
    unfold setReferencePrice
    cases hv : getAssoc ({ s with tm := (openTrade s.tm p now).2 } : SysState).spot
        p.asset with
    | none => rfl
    | some v => exact getAssoc_setAssoc_other _ _ _ _ ha
  · intro id bids ok r now t h
    have hid := lookupTrade_id h
    subst hid
    have hres := resolveCutloss_eq h (cutlossSellPrice bids ok) r now
    constructor
    · show getAssoc (step s (Ev.cutloss t.trade_id bids ok r now)).refPrice
        t.asset = none
      unfold step
      simp only [h, hres]
      exact getAssoc_delAssoc_self _ _
    · intro ha
      show getAssoc (step s (Ev.cutloss t.trade_id bids ok r now)).refPrice a =
        getAssoc s.refPrice a
      unfold step
      simp only [h, hres]
      exact getAssoc_delAssoc_other _ _ _ ha
  · intro id win now t h
    have hid := lookupTrade_id h
    subst hid
    cases win with
    | true =>
      have hres : resolveWin (clearReferencePrice s t.asset).tm t.trade_id now =
          some { (clearReferencePrice s t.asset).tm with
            trades := updateTrades (clearReferencePrice s t.asset).tm.trades
              (winUpdate t now),
            balance := (clearReferencePrice s t.asset).tm.balance + t.shares } :=
        resolveWin_eq h now
      constructor
      · show getAssoc (step s (Ev.outcome t.trade_id true now)).refPrice
          t.asset = none
        unfold step
        simp only [h, if_true, hres]
        exact getAssoc_delAssoc_self _ _
      · intro ha
        show getAssoc (step s (Ev.outcome t.trade_id true now)).refPrice a =
          getAssoc s.refPrice a
        unfold step
        simp only [h, if_true, hres]
        exact getAssoc_delAssoc_other _ _ _ ha
    | false =>
      have hres : resolveLoss (clearReferencePrice s t.asset).tm t.trade_id now =
          some { (clearReferencePrice s t.asset).tm with
            trades := updateTrades (clearReferencePrice s t.asset).tm.trades
              (lossUpdate t now) } :=
        resolveLoss_eq h now
      constructor
      · show getAssoc (step s (Ev.outcome t.trade_id false now)).refPrice
          t.asset = none
        unfold step
        simp only [h, if_false, hres]
        exact getAssoc_delAssoc_self _ _
      · intro ha
        show getAssoc (step s (Ev.outcome t.trade_id false now)).refPrice a =
          getAssoc s.refPrice a
        unfold step
        simp only [h, if_false, hres]
        exact getAssoc_delAssoc_other _ _ _ ha

/-- Witness for the C7 amended claim: on the one-open-trade system state,
resolving T0001 as a win clears the BTC reference, and a tick leaves the
reference dictionary untouched. -/
theorem reference_price_per_asset_check :
    getAssoc (step oneTradeSys (Ev.outcome "T0001" true 200)).refPrice
      (openTrade (TMState.init 100) p971 0).1.asset = none ∧
    (step oneTradeSys (Ev.tick "BTC" 49000)).refPrice = oneTradeSys.refPrice :=
  ⟨((reference_price_per_asset oneTradeSys "ETH").2.2.2.2 "T0001" true 200
      (openTrade (TMState.init 100) p971 0).1 (by decide)).1,
    (reference_price_per_asset oneTradeSys "ETH").1 "BTC" 49000⟩

/-! ### Evaluation lemmas for the spec-side entry evaluator -/

theorem spec_eval_1 (cfg : StratConfig) (i : EntryInput)
    (h : passTimeWindow cfg i = false) :
    shouldEnterSpec cfg i = (false, reasonTimeWindow cfg i) := by
  unfold shouldEnterSpec specChecks
  rw [h]
  rfl

theorem spec_eval_2 (cfg : StratConfig) (i : EntryInput)
    (h1 : passTimeWindow cfg i = true) (h2 : passUniqueness i = false) :
    shouldEnterSpec cfg i = (false, .alreadyTradedMarket) := by
  unfold shouldEnterSpec specChecks
  rw [h1, h2]
  rfl

theorem spec_eval_3 (cfg : StratConfig) (i : EntryInput)
    (h1 : passTimeWindow cfg i = true) (h2 : passUniqueness i = true)
    (h3 : passAskThreshold cfg i = false) :
    shouldEnterSpec cfg i = (false, reasonAskThreshold cfg i) := by
  unfold shouldEnterSpec specChecks
  rw [h1, h2, h3]
  rfl

theorem spec_eval_4 (cfg : StratConfig) (i : EntryInput)
    (h1 : passTimeWindow cfg i = true) (h2 : passUniqueness i = true)
    (h3 : passAskThreshold cfg i = true) (h4 : passSpread i = false) :
    shouldEnterSpec cfg i = (false, .spreadTooWide) := by
  unfold shouldEnterSpec specChecks
  rw [h1, h2, h3, h4]
  rfl

theorem spec_eval_5 (cfg : StratConfig) (i : EntryInput)
    (h1 : passTimeWindow cfg i = true) (h2 : passUniqueness i = true)
    (h3 : passAskThreshold cfg i = true) (h4 : passSpread i = true)
    (h5 : passMomentum i = false) :
    shouldEnterSpec cfg i = (false, reasonMomentum i) := by
  unfold shouldEnterSpec specChecks
  rw [h1, h2, h3, h4, h5]
  rfl

theorem spec_eval_6 (cfg : StratConfig) (i : EntryInput)
    (h1 : passTimeWindow cfg i = true) (h2 : passUniqueness i = true)
    (h3 : passAskThreshold cfg i = true) (h4 : passSpread i = true)
    (h5 : passMomentum i = true) (h6 : passSpot i = false) :
    shouldEnterSpec cfg i = (false, .noSpotPrice) := by
  unfold shouldEnterSpec specChecks
  rw [h1, h2, h3, h4, h5, h6]
  rfl

theorem spec_eval_ok (cfg : StratConfig) (i : EntryInput)
    (h1 : passTimeWindow cfg i = true) (h2 : passUniqueness i = true)
    (h3 : passAskThreshold cfg i = true) (h4 : passSpread i = true)
    (h5 : passMomentum i = true) (h6 : passSpot i = true) :
    shouldEnterSpec cfg i = (true, .entryOk) := by
  unfold shouldEnterSpec specChecks
  rw [h1, h2, h3, h4, h5, h6]
  rfl

theorem shouldEnterSpec_fst (cfg : StratConfig) (i : EntryInput) :
    (shouldEnterSpec cfg i).1 = (passTimeWindow cfg i && passUniqueness i &&
      passAskThreshold cfg i && passSpread i && passMomentum i && passSpot i) := by
  unfold shouldEnterSpec specChecks
  cases passTimeWindow cfg i <;> cases passUniqueness i <;>
    cases passAskThreshold cfg i <;> cases passSpread i <;>
    cases passMomentum i <;> cases passSpot i <;> rfl

/-! ### Equation lemmas for the staged entry evaluator -/

theorem shouldEnterAsk_none {i : EntryInput} (h : i.best_ask = none)
    (cfg : StratConfig) : shouldEnterAsk cfg i = (false, .noOrderBook) := by
  unfold shouldEnterAsk
  rw [h]

theorem shouldEnterAsk_some {i : EntryInput} {a : ℚ} (h : i.best_ask = some a)
    (cfg : StratConfig) :
    shouldEnterAsk cfg i =
      if a < cfg.buy_threshold then (false, .priceTooLow)
      else if a ≥ 1 then (false, .priceAtOne)
      else shouldEnterSpread i := by
  unfold shouldEnterAsk
  rw [h]

theorem shouldEnterSpread_none {i : EntryInput} (h : i.spread = none) :
    shouldEnterSpread i = shouldEnterMomentum i := by
  unfold shouldEnterSpread
  rw [h]
  rfl

theorem shouldEnterSpread_some {i : EntryInput} {sv : ℚ} (h : i.spread = some sv) :
    shouldEnterSpread i =
      if (!decide (sv = 0)) && decide (sv > 0.05) then (false, .spreadTooWide)
      else shouldEnterMomentum i := by
  unfold shouldEnterSpread
  rw [h]

theorem shouldEnterMomentum_none {i : EntryInput} (h : i.trend_1m = none) :
    shouldEnterMomentum i = shouldEnterSpot i := by
  unfold shouldEnterMomentum
  rw [h]

theorem shouldEnterMomentum_some {i : EntryInput} {t : ℚ} (h : i.trend_1m = some t) :
    shouldEnterMomentum i =
      if i.direction = "UP" ∧ t < -0.002 then (false, .assetDropping)
      else if i.direction = "DOWN" ∧ t > 0.002 then (false, .assetRising)
      else shouldEnterSpot i := by
  unfold shouldEnterMomentum
  rw [h]

theorem shouldEnterSpot_none {i : EntryInput} (h : i.spot_price = none) :
    shouldEnterSpot i = (false, .noSpotPrice) := by
  unfold shouldEnterSpot
  rw [h]

theorem shouldEnterSpot_some {i : EntryInput} {v : ℚ} (h : i.spot_price = some v) :
    shouldEnterSpot i = (true, .entryOk) := by
  unfold shouldEnterSpot
  rw [h]

theorem spot_stage_eq (cfg : StratConfig) (i : EntryInput)
    (hp1 : passTimeWindow cfg i = true) (hp2 : passUniqueness i = true)
    (hp3 : passAskThreshold cfg i = true) (hp4 : passSpread i = true)
    (hp5 : passMomentum i = true) :
    shouldEnterSpot i = shouldEnterSpec cfg i := by
  cases hspot : i.spot_price with
  | none =>
    have hp6 : passSpot i = false := by
      unfold passSpot
      rw [hspot]
      rfl
    rw [shouldEnterSpot_none hspot, spec_eval_6 cfg i hp1 hp2 hp3 hp4 hp5 hp6]
  | some v =>
    have hp6 : passSpot i = true := by
      unfold passSpot
      rw [hspot]
      rfl
    rw [shouldEnterSpot_some hspot, spec_eval_ok cfg i hp1 hp2 hp3 hp4 hp5 hp6]

theorem momentum_stage_eq (cfg : StratConfig) (i : EntryInput)
    (hp1 : passTimeWindow cfg i = true) (hp2 : passUniqueness i = true)
    (hp3 : passAskThreshold cfg i = true) (hp4 : passSpread i = true) :
    shouldEnterMomentum i = shouldEnterSpec cfg i := by
  cases htr : i.trend_1m with
  | none =>
    have hp5 : passMomentum i = true := by
      unfold passMomentum
      rw [htr]
    rw [shouldEnterMomentum_none htr]
    exact spot_stage_eq cfg i hp1 hp2 hp3 hp4 hp5
  | some t =>
    by_cases h7 : i.direction = "UP" ∧ t < -0.002
    · have hp5 : passMomentum i = false := by
        unfold passMomentum
        rw [htr]
        simp [h7.1, h7.2]
      have hr : reasonMomentum i = .assetDropping := by
        unfold reasonMomentum
        rw [htr]
        show (if i.direction = "UP" ∧ t < -0.002 then EntryReason.assetDropping
          else EntryReason.assetRising) = _
        rw [if_pos h7]
      rw [shouldEnterMomentum_some htr, if_pos h7,
        spec_eval_5 cfg i hp1 hp2 hp3 hp4 hp5, hr]
    · by_cases h8 : i.direction = "DOWN" ∧ t > 0.002
      · have hp5 : passMomentum i = false := by
          unfold passMomentum
          rw [htr]
          simp [h8.1, h8.2]
        have hr : reasonMomentum i = .assetRising := by
          unfold reasonMomentum
          rw [htr]
          show (if i.direction = "UP" ∧ t < -0.002 then EntryReason.assetDropping
            else EntryReason.assetRising) = _
          rw [if_neg h7]
        rw [shouldEnterMomentum_some htr, if_neg h7, if_pos h8,
          spec_eval_5 cfg i hp1 hp2 hp3 hp4 hp5, hr]
      · have hp5 : passMomentum i = true := by
          unfold passMomentum
          rw [htr]
          simp only [Bool.and_eq_true, Bool.not_eq_true', Bool.and_eq_false_iff,
            decide_eq_false_iff_not, decide_eq_true_eq]
          constructor
          · rcases not_and_or.mp h7 with h | h
            · exact Or.inl h
            · exact Or.inr h
          · rcases not_and_or.mp h8 with h | h
            · exact Or.inl h
            · exact Or.inr h
        rw [shouldEnterMomentum_some htr, if_neg h7, if_neg h8]
        exact spot_stage_eq cfg i hp1 hp2 hp3 hp4 hp5

/-- C6: the entry evaluator accepts exactly when all six checks pass,
evaluating them in the spec's order (time window, market uniqueness,
ask-price threshold with ask strictly below 1.0, spread ≤ 5 cents, momentum
veto at 0.2 % tolerance, spot price available) and short-circuiting on the
first failing check with that check's reason: it coincides with the
first-failure evaluator built from the six checks, and its verdict equals
their conjunction. -/
theorem entry_evaluator_six_checks (cfg : StratConfig) (i : EntryInput) :
    shouldEnter cfg i = shouldEnterSpec cfg i ∧
    (shouldEnter cfg i).1 = (passTimeWindow cfg i && passUniqueness i &&
      passAskThreshold cfg i && passSpread i && passMomentum i && passSpot i) := by
  have hmain : shouldEnter cfg i = shouldEnterSpec cfg i := by
    unfold shouldEnter
    by_cases h1 : i.seconds_to_close > entryWindow cfg i.market_type
    · have hp : passTimeWindow cfg i = false := by
        unfold passTimeWindow
        simp [not_le.mpr h1]
      have hr : reasonTimeWindow cfg i = .tooEarly := by
        unfold reasonTimeWindow
        rw [if_pos h1]
      rw [if_pos h1, spec_eval_1 cfg i hp, hr]
    · by_cases h2 : i.seconds_to_close ≤ 5
      · have hp : passTimeWindow cfg i = false := by
          unfold passTimeWindow
          simp [not_lt.mpr h2]
        have hr : reasonTimeWindow cfg i = .tooLate := by
          unfold reasonTimeWindow
          rw [if_neg h1]
        rw [if_neg h1, if_pos h2, spec_eval_1 cfg i hp, hr]
      · have hp1 : passTimeWindow cfg i = true := by
          unfold passTimeWindow
          simp [not_lt.mp h1, not_le.mp h2]
        by_cases h3 : i.already_traded = true
        · have hp2 : passUniqueness i = false := by
            unfold passUniqueness
            rw [h3]
            rfl
          rw [if_neg h1, if_neg h2, if_pos h3, spec_eval_2 cfg i hp1 hp2]
        · have h3f : i.already_traded = false := by
            revert h3
            cases i.already_traded <;> simp
          have hp2 : passUniqueness i = true := by
            unfold passUniqueness
            rw [h3f]
            rfl
          rw [if_neg h1, if_neg h2, if_neg h3]
          cases hba : i.best_ask with
          | none =>
            have hp3 : passAskThreshold cfg i = false := by
              unfold passAskThreshold
              rw [hba]
            have hr : reasonAskThreshold cfg i = .noOrderBook := by
              unfold reasonAskThreshold
              rw [hba]
            rw [shouldEnterAsk_none hba, spec_eval_3 cfg i hp1 hp2 hp3, hr]
          | some a =>
            by_cases h4 : a < cfg.buy_threshold
            · have hp3 : passAskThreshold cfg i = false := by
                unfold passAskThreshold
                rw [hba]
                simp [not_le.mpr h4]
              have hr : reasonAskThreshold cfg i = .priceTooLow := by
                unfold reasonAskThreshold
                rw [hba]
                show (if a < cfg.buy_threshold then EntryReason.priceTooLow
                  else EntryReason.priceAtOne) = _
                rw [if_pos h4]
              rw [shouldEnterAsk_some hba, if_pos h4,
                spec_eval_3 cfg i hp1 hp2 hp3, hr]
            · by_cases h5 : a ≥ 1
              · have hp3 : passAskThreshold cfg i = false := by
                  unfold passAskThreshold
                  rw [hba]
                  simp [not_lt.mpr h5]
                have hr : reasonAskThreshold cfg i = .priceAtOne := by
                  unfold reasonAskThreshold
                  rw [hba]
                  show (if a < cfg.buy_threshold then EntryReason.priceTooLow
                    else EntryReason.priceAtOne) = _
                  rw [if_neg h4]
                rw [shouldEnterAsk_some hba, if_neg h4, if_pos h5,
                  spec_eval_3 cfg i hp1 hp2 hp3, hr]
              · have hp3 : passAskThreshold cfg i = true := by
                  unfold passAskThreshold
                  rw [hba]
                  simp [not_lt.mp h4, not_le.mp h5]
                rw [shouldEnterAsk_some hba, if_neg h4, if_neg h5]
                cases hsp : i.spread with
                | none =>
                  have hp4 : passSpread i = true := by
                    unfold passSpread
                    rw [hsp]
                  rw [shouldEnterSpread_none hsp]
                  exact momentum_stage_eq cfg i hp1 hp2 hp3 hp4
                | some sv =>
                  by_cases h6 : sv > 0.05
                  · have h60 : ¬sv = 0 := by
                      have hpos : (0 : ℚ) < sv := lt_trans (by norm_num) h6
                      exact ne_of_gt hpos
                    have hp4 : passSpread i = false := by
                      unfold passSpread
                      rw [hsp]
                      simp [not_le.mpr h6]
                    rw [shouldEnterSpread_some hsp,
                      if_pos (by simp [h60, h6] : ((!decide (sv = 0)) &&
                        decide (sv > 0.05)) = true),
                      spec_eval_4 cfg i hp1 hp2 hp3 hp4]
                  · have hp4 : passSpread i = true := by
                      unfold passSpread
                      rw [hsp]
                      simp [not_lt.mp h6]
                    rw [shouldEnterSpread_some hsp,
                      if_neg (by simp [h6] : ¬(((!decide (sv = 0)) &&
                        decide (sv > 0.05)) = true))]
                    exact momentum_stage_eq cfg i hp1 hp2 hp3 hp4
  refine ⟨hmain, ?_⟩
  rw [hmain, shouldEnterSpec_fst cfg i]

end Kopek
